import Mathlib

/-!
# Token signing and request dispatch of the Tinkoff acquiring client

A shallow embedding of `client.go` and `check_order.go`.

* Go `string` and `[]byte` values are lists of bytes (`Bytes`).
* A Go `map[string]string` is the list of its entries in the order a `range`
  loop happens to visit them; a well-formed map has pairwise distinct keys.
  Where a map value may be `nil` it is an `Option GoMap`, `none` being `nil`.
* Functions that return `(value, error)` return an `Outcome`, which also
  records a run-time panic and `log.Fatalln`.
* `crypto/sha256.Sum256` is the FIPS 180-4 function, written out below.
* `encoding/json`, `net/http` request construction and the missing
  `BaseResponse.Error` are parameters collected in `StdLib`.
-/

namespace Tinkoff

/-! ## Bytes and strings -/

/-- One byte. -/
abbrev Byte := Fin 256

/-- Go `string` or `[]byte`: a finite sequence of bytes. -/
abbrev Bytes := List Byte

/-- Conversion `byte(n)`: the low eight bits of `n`. -/
def byte (n : Nat) : Byte := ⟨n % 256, Nat.mod_lt n (by decide)⟩

/-- Bytes of an ASCII string literal of the source. -/
def str (s : String) : Bytes := s.data.map (fun c => byte c.toNat)

/-- Go comparison `a < b` on strings: byte-wise lexicographic, a proper
initial segment being smaller. -/
def strLess : Bytes → Bytes → Bool
  | [], [] => false
  | [], _ :: _ => true
  | _ :: _, [] => false
  | a :: as, b :: bs => decide (a < b) || (decide (a = b) && strLess as bs)

/-- Go comparison `a <= b` on strings, as `!(b < a)`. -/
def strLE (a b : Bytes) : Prop := strLess b a = false

instance strLE.decidable : DecidableRel strLE := fun a b =>
  inferInstanceAs (Decidable (strLess b a = false))

/-- Library `sort.Strings`: rearranges the slice into ascending order. The
order is total and antisymmetric, so every correct sorting routine returns the
same slice; insertion sort stands for the library routine. -/
def sortStrings (keys : List Bytes) : List Bytes := List.insertionSort strLE keys

/-! ## `crypto/sha256` (FIPS 180-4) -/

/-- Rotate a 32-bit word right by `n` bits. -/
def rotr (n x : Nat) : Nat := ((x >>> n) ||| (x <<< (32 - n))) % 4294967296

/-- FIPS 180-4 function `Ch`. -/
def Ch (x y z : Nat) : Nat := (x &&& y) ^^^ ((x ^^^ 4294967295) &&& z)

/-- FIPS 180-4 function `Maj`. -/
def Maj (x y z : Nat) : Nat := (x &&& y) ^^^ (x &&& z) ^^^ (y &&& z)

/-- FIPS 180-4 function capital sigma 0. -/
def bigSigma0 (x : Nat) : Nat := rotr 2 x ^^^ rotr 13 x ^^^ rotr 22 x

/-- FIPS 180-4 function capital sigma 1. -/
def bigSigma1 (x : Nat) : Nat := rotr 6 x ^^^ rotr 11 x ^^^ rotr 25 x

/-- FIPS 180-4 function small sigma 0. -/
def smallSigma0 (x : Nat) : Nat := rotr 7 x ^^^ rotr 18 x ^^^ (x >>> 3)

/-- FIPS 180-4 function small sigma 1. -/
def smallSigma1 (x : Nat) : Nat := rotr 17 x ^^^ rotr 19 x ^^^ (x >>> 10)

/-- The sixty-four round constants. -/
def K256 : List Nat := [
  0x428a2f98, 0x71374491, 0xb5c0fbcf, 0xe9b5dba5, 0x3956c25b, 0x59f111f1, 0x923f82a4, 0xab1c5ed5,
  0xd807aa98, 0x12835b01, 0x243185be, 0x550c7dc3, 0x72be5d74, 0x80deb1fe, 0x9bdc06a7, 0xc19bf174,
  0xe49b69c1, 0xefbe4786, 0x0fc19dc6, 0x240ca1cc, 0x2de92c6f, 0x4a7484aa, 0x5cb0a9dc, 0x76f988da,
  0x983e5152, 0xa831c66d, 0xb00327c8, 0xbf597fc7, 0xc6e00bf3, 0xd5a79147, 0x06ca6351, 0x14292967,
  0x27b70a85, 0x2e1b2138, 0x4d2c6dfc, 0x53380d13, 0x650a7354, 0x766a0abb, 0x81c2c92e, 0x92722c85,
  0xa2bfe8a1, 0xa81a664b, 0xc24b8b70, 0xc76c51a3, 0xd192e819, 0xd6990624, 0xf40e3585, 0x106aa070,
  0x19a4c116, 0x1e376c08, 0x2748774c, 0x34b0bcb5, 0x391c0cb3, 0x4ed8aa4a, 0x5b9cca4f, 0x682e6ff3,
  0x748f82ee, 0x78a5636f, 0x84c87814, 0x8cc70208, 0x90befffa, 0xa4506ceb, 0xbef9a3f7, 0xc67178f2]

/-- The eight 32-bit words of the running hash value. -/
structure Digest where
  h0 : Nat
  h1 : Nat
  h2 : Nat
  h3 : Nat
  h4 : Nat
  h5 : Nat
  h6 : Nat
  h7 : Nat
deriving DecidableEq, Repr

/-- The initial hash value. -/
def initDigest : Digest :=
  ⟨0x6a09e667, 0xbb67ae85, 0x3c6ef372, 0xa54ff53a, 0x510e527f, 0x9b05688c, 0x1f83d9ab, 0x5be0cd19⟩

/-- Next word of the message schedule from the window of the last sixteen. -/
def nextWord (w : List Nat) : Nat :=
  (smallSigma1 (w.getD 14 0) + w.getD 9 0 + smallSigma0 (w.getD 1 0) + w.getD 0 0) % 4294967296

/-- The first `n` words of the message schedule that starts with window `w`. -/
def schedule : Nat → List Nat → List Nat
  | 0, _ => []
  | _ + 1, [] => []
  | n + 1, w0 :: rest => w0 :: schedule n (rest ++ [nextWord (w0 :: rest)])

/-- One round of the compression function on the working variables. -/
def sha256Round (s : Digest) (kw : Nat × Nat) : Digest :=
  let t1 := s.h7 + bigSigma1 s.h4 + Ch s.h4 s.h5 s.h6 + kw.1 + kw.2
  let t2 := bigSigma0 s.h0 + Maj s.h0 s.h1 s.h2
  ⟨(t1 + t2) % 4294967296, s.h0, s.h1, s.h2, (s.h3 + t1) % 4294967296, s.h4, s.h5, s.h6⟩

/-- Big-endian 32-bit word of four bytes. -/
def beWord : Bytes → Nat
  | [b0, b1, b2, b3] => b0.val * 16777216 + b1.val * 65536 + b2.val * 256 + b3.val
  | _ => 0

/-- The first `n` big-endian words of a byte sequence. -/
def beWords : Nat → Bytes → List Nat
  | 0, _ => []
  | n + 1, bs => beWord (bs.take 4) :: beWords n (bs.drop 4)

/-- The compression function on one 64-byte block. -/
def block (s : Digest) (chunk : Bytes) : Digest :=
  let w := schedule 64 (beWords 16 chunk)
  let t := (K256.zip w).foldl sha256Round s
  ⟨(s.h0 + t.h0) % 4294967296, (s.h1 + t.h1) % 4294967296, (s.h2 + t.h2) % 4294967296,
   (s.h3 + t.h3) % 4294967296, (s.h4 + t.h4) % 4294967296, (s.h5 + t.h5) % 4294967296,
   (s.h6 + t.h6) % 4294967296, (s.h7 + t.h7) % 4294967296⟩

/-- The `n` low bytes of `x`, most significant first. -/
def beBytes (n : Nat) (x : Nat) : Bytes :=
  (List.range n).reverse.map (fun i => byte (x >>> (8 * i)))

/-- Message padding: a `0x80` byte, zero bytes up to 56 modulo 64, then the
bit length as a 64-bit big-endian number. -/
def pad (msg : Bytes) : Bytes :=
  msg ++ [byte 128] ++ List.replicate ((119 - msg.length % 64) % 64) (byte 0) ++
    beBytes 8 ((msg.length * 8) % 18446744073709551616)

/-- Hash value after the first `n` blocks of `bs`. -/
def blocks : Nat → Digest → Bytes → Digest
  | 0, s, _ => s
  | n + 1, s, bs => blocks n (block s (bs.take 64)) (bs.drop 64)

/-- The eight words of the final hash value of `msg`. -/
def finalDigest (msg : Bytes) : Digest :=
  blocks ((pad msg).length / 64) initDigest (pad msg)

/-- Library `sha256.Sum256`: the 32-byte SHA-256 checksum of `msg`. -/
def Sum256 (msg : Bytes) : Bytes :=
  let d := finalDigest msg
  beBytes 4 d.h0 ++ beBytes 4 d.h1 ++ beBytes 4 d.h2 ++ beBytes 4 d.h3 ++
  beBytes 4 d.h4 ++ beBytes 4 d.h5 ++ beBytes 4 d.h6 ++ beBytes 4 d.h7

/-- ASCII code of the lowercase hexadecimal digit of a value below sixteen. -/
def hexDigit (n : Nat) : Byte := byte (if n < 10 then 48 + n else 87 + n)

/-- Library `fmt.Sprintf("%x", sum)` on a byte array: two lowercase
hexadecimal digits per byte, high nibble first, no separators. -/
def sprintfHex (sum : Bytes) : Bytes :=
  sum.foldr (fun b acc => hexDigit (b.val / 16) :: hexDigit (b.val % 16) :: acc) []

/-! ## Maps -/

/-- Go `map[string]string`, given by its entries in iteration order. -/
abbrev GoMap := List (Bytes × Bytes)

/-- Keys of a map, in iteration order. -/
def mapKeys (v : GoMap) : List Bytes := v.map Prod.fst

/-- Map index expression `v[key]`: the stored value, the zero value `""`
when the key is absent. -/
def mapIndex : GoMap → Bytes → Bytes
  | [], _ => []
  | (k, x) :: rest, key => if k = key then x else mapIndex rest key

/-- Map assignment `v[key] = val`: replaces the entry of `key` or adds one. -/
def mapAssign : GoMap → Bytes → Bytes → GoMap
  | [], key, val => [(key, val)]
  | (k, x) :: rest, key, val =>
    if k = key then (key, val) :: rest else (k, x) :: mapAssign rest key val

/-! ## `client.go` -/

/-- Go `error` values: `io.EOF`, a value made by `errors.New`, or any other
error value handed over by a library or the transport, named by a tag. -/
inductive GoError where
  | EOF
  | errorString (msg : Bytes)
  | other (tag : Nat)
deriving DecidableEq, Repr

/-- Type `io.ReadCloser` of a response body: the bytes the reader has yet to
deliver and how the stream ends (`none`: a clean `io.EOF`). -/
structure Body where
  data : Bytes
  failure : Option GoError
deriving DecidableEq, Repr

/-- Library `io.ReadAll`: everything up to the end of the stream, the error
that ended it if any, and the reader afterwards, which has nothing left. -/
def ReadAll (b : Body) : Bytes × Option GoError × Body :=
  (b.data, b.failure, { data := [], failure := b.failure })

/-- The fields of `http.Response` the client looks at. -/
structure HttpResponse where
  StatusCode : Int
  Body : Body
deriving DecidableEq, Repr

/-- The fields of `http.Request` the client sets. -/
structure HttpRequest where
  Method : Bytes
  URL : Bytes
  Header : GoMap
  Body : Bytes
deriving DecidableEq, Repr

/-- What a Go call does: returns its `(value, error)` pair (`nil` is `none`),
panics, or ends the process through `log.Fatalln`. -/
inductive Outcome (α : Type) where
  | ret (val : Option α) (err : Option GoError)
  | panic
  | fatal (err : GoError)
deriving DecidableEq, Repr

/-- Type `Config`; `httpClient` is the `Do` method of the `httpDoer`. -/
structure Config where
  httpClient : HttpRequest → Option HttpResponse × Option GoError
  terminalKey : Bytes
  password : Bytes
  baseURL : Bytes

/-- Type `Client` embeds `Config`. -/
abbrev Client := Config

/-- Method set `RequestInterface` over a request type; the setters act in
place on the request, here by returning the new request. The map
`GetValuesForToken` returns may be `nil`, which is `none`. -/
structure RequestInterface (ρ : Type) where
  GetValuesForToken : ρ → Option GoMap
  SetTerminalKey : ρ → Bytes → ρ
  SetToken : ρ → Bytes → ρ

/-- Library and out-of-file behaviour the client calls into: `json.Marshal`
of a request, `http.NewRequestWithContext`, the `encoding/json` decoding of a
non-empty input into the response shape, and the `Error` method of the
response. -/
structure StdLib (ρ R : Type) where
  jsonMarshal : ρ → Except GoError Bytes
  newRequestWithContext : Bytes → Bytes → Bytes → Except GoError HttpRequest
  jsonDecode : Bytes → Except GoError R
  responseError : R → Option GoError

/-- Contents of the buffer `b` of `generateToken` after its second loop:
the keys are collected, sorted, and the values written in that order. -/
def tokenBuffer (v : GoMap) : Bytes :=
  let keys := v.foldl (fun keys kv => keys ++ [kv.1]) []
  let keys := sortStrings keys
  keys.foldl (fun b key => b ++ mapIndex v key) []

/-- Function `generateToken`. -/
def generateToken (v : GoMap) : Bytes :=
  let sum := Sum256 (tokenBuffer v)
  sprintfHex sum

/-- State after `secureRequest`: the request as the call leaves it, and
whether the call ended in a run-time panic instead of returning. -/
structure Signed (ρ : Type) where
  request : ρ
  panicked : Bool

/-- Method `secureRequest`. The assignment `v["TerminalKey"] = ...` panics
when `v` is the `nil` map; the terminal key is set by then, the token is not. -/
def secureRequest {ρ : Type} (c : Client) (I : RequestInterface ρ) (request : ρ) :
    Signed ρ :=
  let request := I.SetTerminalKey request c.terminalKey
  match I.GetValuesForToken request with
  | none => ⟨request, true⟩
  | some v =>
    let v := mapAssign v (str "TerminalKey") c.terminalKey
    let v := mapAssign v (str "Password") c.password
    ⟨I.SetToken request (generateToken v), false⟩

/-- Method `isSuccessResponseCode`. -/
def isSuccessResponseCode (resp : HttpResponse) : Bool :=
  resp.StatusCode == 200 || resp.StatusCode == 201 || resp.StatusCode == 204

/-- Decimal digits of a natural number; `fuel` bounds the number of digits. -/
def decimalDigits : Nat → Nat → Bytes
  | 0, _ => []
  | fuel + 1, n =>
    if n < 10 then [byte (48 + n)] else decimalDigits fuel (n / 10) ++ [byte (48 + n % 10)]

/-- Library `strconv.Itoa`: decimal rendering, a minus sign for negatives. -/
def Itoa : Int → Bytes
  | Int.ofNat n => decimalDigits (n + 1) n
  | Int.negSucc n => byte 45 :: decimalDigits (n + 2) (n + 1)

/-- Method `returnErrOnResponse`. -/
def returnErrOnResponse (code : Int) (body : Bytes) : GoError :=
  GoError.errorString (str "error code: " ++ Itoa code ++ str "message: " ++ body)

/-- State after `PostRequestWithContext`: the request as signed in place, the
response object the transport produced (if any) as the call leaves it, and
what the call returned. -/
structure PostState (ρ : Type) where
  request : ρ
  wire : Option HttpResponse
  out : Outcome HttpResponse

/-- Method `PostRequestWithContext`. The context only reaches the transport,
whose behaviour is the `httpClient` function. -/
def PostRequestWithContext {ρ R : Type} (lib : StdLib ρ R) (c : Client)
    (I : RequestInterface ρ) (url : Bytes) (request : ρ) : PostState ρ :=
  let signed := secureRequest c I request
  let request := signed.request
  if signed.panicked then ⟨request, none, .panic⟩ else
  match lib.jsonMarshal request with
  | .error err => ⟨request, none, .ret none (some err)⟩
  | .ok data =>
    match lib.newRequestWithContext (str "POST") (c.baseURL ++ url) data with
    | .error err => ⟨request, none, .ret none (some err)⟩
    | .ok req =>
      let req := { req with
        Header := mapAssign req.Header (str "Content-Type") (str "application/json") }
      match c.httpClient req with
      | (resp, some err) => ⟨request, resp, .ret none (some err)⟩
      | (none, none) => ⟨request, none, .panic⟩
      | (some resp, none) =>
        if !isSuccessResponseCode resp then
          match ReadAll resp.Body with
          | (_, some err, rest) =>
            ⟨request, some { resp with Body := rest }, .ret none (some err)⟩
          | (body, none, rest) =>
            ⟨request, some { resp with Body := rest },
              .ret none (some (returnErrOnResponse resp.StatusCode body))⟩
        else ⟨request, some resp, .ret (some resp) none⟩

/-- Method `PostRequest`: `PostRequestWithContext` with the background context. -/
def PostRequest {ρ R : Type} (lib : StdLib ρ R) (c : Client)
    (I : RequestInterface ρ) (url : Bytes) (request : ρ) : PostState ρ :=
  PostRequestWithContext lib c I url request

/-- Method `decodeResponse`: `json.NewDecoder(response.Body).Decode(result)`.
A decoder whose reader ends before delivering a byte returns the error that
ended the stream, `io.EOF` for a clean end; otherwise it parses what the
reader delivers. -/
def decodeResponse {ρ R : Type} (lib : StdLib ρ R) (response : HttpResponse) :
    Except GoError R :=
  match response.Body.data, response.Body.failure with
  | [], none => .error GoError.EOF
  | [], some err => .error err
  | b :: bs, _ => lib.jsonDecode (b :: bs)

/-! ## `check_order.go` -/

/-- Modelled from the spec: type `BaseRequest`, declared outside the two
source files; the spec gives a request a mutable terminal-identifier slot and
a mutable signature slot. -/
structure BaseRequest where
  TerminalKey : Bytes
  Token : Bytes
deriving DecidableEq, Repr

/-- Type `CheckOrderRequest`. -/
structure CheckOrderRequest extends BaseRequest where
  OrderID : Bytes
deriving DecidableEq, Repr

/-- Method `CheckOrderRequest.GetValuesForToken`: a map literal, never `nil`. -/
def CheckOrderRequest.GetValuesForToken (i : CheckOrderRequest) : GoMap :=
  [(str "OrderId", i.OrderID)]

/-- Modelled from the spec: setter of the terminal-identifier slot that
`CheckOrderRequest` takes over from `BaseRequest`. -/
def CheckOrderRequest.SetTerminalKey (i : CheckOrderRequest) (key : Bytes) :
    CheckOrderRequest :=
  { i with TerminalKey := key }

/-- Modelled from the spec: setter of the signature slot that
`CheckOrderRequest` takes over from `BaseRequest`. -/
def CheckOrderRequest.SetToken (i : CheckOrderRequest) (token : Bytes) :
    CheckOrderRequest :=
  { i with Token := token }

/-- The `RequestInterface` method set of `*CheckOrderRequest`. -/
def checkOrderRequestInterface : RequestInterface CheckOrderRequest :=
  ⟨fun i => some i.GetValuesForToken, CheckOrderRequest.SetTerminalKey,
    CheckOrderRequest.SetToken⟩

/-- Type `CheckOrderPaymentsResponse`. -/
structure CheckOrderPaymentsResponse where
  PaymentID : Bytes
  Amount : Int
  Status : Bytes
deriving DecidableEq, Repr

/-- Type `CheckOrderResponse`; `β` is the embedded `BaseResponse`, which is
declared outside the two source files. -/
structure CheckOrderResponse (β : Type) where
  base : β
  Message : Bytes
  Details : Bytes
  Payments : List CheckOrderPaymentsResponse
deriving DecidableEq, Repr

/-- Method `CheckOrder`. Printing the body to standard output has no effect
on the result and is left out. -/
def CheckOrder {β : Type} (lib : StdLib CheckOrderRequest (CheckOrderResponse β))
    (c : Client) (request : CheckOrderRequest) : Outcome (CheckOrderResponse β) :=
  match (PostRequest lib c checkOrderRequestInterface (str "/CheckOrder") request).out with
  | .panic => .panic
  | .fatal err => .fatal err
  | .ret _ (some err) => .ret none (some err)
  | .ret none none => .panic
  | .ret (some response) none =>
    match ReadAll response.Body with
    | (_, some err, _) => .fatal err
    | (_, none, rest) =>
      let response := { response with Body := rest }
      match decodeResponse lib response with
      | .error err => .ret none (some err)
      | .ok res => .ret (some res) (lib.responseError res)

/-! ## Worked examples and test doubles -/

/-- The sixteen lowercase hexadecimal digits. -/
def hexAlphabet : Bytes := str "0123456789abcdef"

/-- Lowercase hexadecimal rendering as the specification words it: every
byte becomes two digits of `hexAlphabet`, high nibble first. -/
def lowerHex (bs : Bytes) : Bytes :=
  bs.flatMap (fun b => [hexAlphabet.getD (b.val / 16) 0, hexAlphabet.getD (b.val % 16) 0])

/-- The literal field mapping of the worked example, in the order written. -/
def literalFields : GoMap :=
  [(str "TerminalKey", str "TK1"), (str "Password", str "pw"), (str "OrderId", str "ORD42")]

/-- First mapping of the separator example. -/
def splitLeft : GoMap := [(str "A", str "ab"), (str "B", str "c")]

/-- Second mapping of the separator example. -/
def splitRight : GoMap := [(str "A", str "a"), (str "B", str "bc")]

/-- The key/value pairs `secureRequest` hands to `generateToken`: the
request's own pairs with the client's terminal key and password assigned. -/
def signedFields (c : Client) (v : GoMap) : GoMap :=
  mapAssign (mapAssign v (str "TerminalKey") c.terminalKey) (str "Password") c.password

/-- Test double for the transport: answers every request with the given
status code and body. -/
def stubTransport (code : Int) (body : Bytes) :
    HttpRequest → Option HttpResponse × Option GoError :=
  fun _ => (some { StatusCode := code, Body := { data := body, failure := none } }, none)

/-- Test double for the transport: fails every request with the given error
and hands back no response. -/
def failingTransport (err : GoError) : HttpRequest → Option HttpResponse × Option GoError :=
  fun _ => (none, some err)

/-- A client with the credentials TK1 and pw on the given transport. -/
def stubClient (transport : HttpRequest → Option HttpResponse × Option GoError) : Client :=
  { httpClient := transport, terminalKey := str "TK1", password := str "pw",
    baseURL := str "https://securepay.tinkoff.ru/v2" }

/-- The response of the decoding example: one confirmed payment of 100. -/
def onePayment : CheckOrderResponse Bool :=
  { base := true, Message := [], Details := [],
    Payments := [{ PaymentID := str "1", Amount := 100, Status := str "CONFIRMED" }] }

/-- Body of the decoding example. -/
def onePaymentBody : Bytes :=
  str ("\x7b\"Success\":true,\"Payments\":[\x7b\"PaymentId\":\"1\",\"Amount\":100," ++
    "\"Status\":\"CONFIRMED\"\x7d]\x7d")

/-- Library stand-in for the examples: marshalling and request construction
succeed, and the JSON parser maps every non-empty input to `onePayment`. -/
def stubLib : StdLib CheckOrderRequest (CheckOrderResponse Bool) :=
  { jsonMarshal := fun r => .ok (r.TerminalKey ++ r.OrderID ++ r.Token),
    newRequestWithContext := fun m u b => .ok { Method := m, URL := u, Header := [], Body := b },
    jsonDecode := fun _ => .ok onePayment,
    responseError := fun r => if r.base then none else some (GoError.other 0) }

/-- A request type with the setters of `CheckOrderRequest` whose
`GetValuesForToken` returns the `nil` map. -/
def nilMapInterface : RequestInterface CheckOrderRequest :=
  ⟨fun _ => none, CheckOrderRequest.SetTerminalKey, CheckOrderRequest.SetToken⟩

/-- The request of the examples. -/
def orderRequest : CheckOrderRequest :=
  { TerminalKey := [], Token := [], OrderID := str "ORD42" }

/-! ## The string order -/

theorem strLess_irrefl (a : Bytes) : strLess a a = false := by
  induction a with
  | nil => rfl
  | cons x xs ih => simp [strLess, ih]

theorem strLess_asymm : ∀ (a b : Bytes), strLess a b = true → strLess b a = false
  | [], [], h => by simp [strLess] at h
  | [], _ :: _, _ => by simp [strLess]
  | _ :: _, [], h => by simp [strLess] at h
  | x :: xs, y :: ys, h => by
    simp only [strLess, Bool.or_eq_true, Bool.and_eq_true, decide_eq_true_eq] at h
    simp only [strLess, Bool.or_eq_false_iff, Bool.and_eq_false_iff, decide_eq_false_iff_not]
    rcases h with h | ⟨h1, h2⟩
    · exact ⟨lt_asymm h, Or.inl (ne_of_gt h)⟩
    · exact ⟨h1 ▸ lt_irrefl x, Or.inr (strLess_asymm xs ys h2)⟩

theorem strLess_trans : ∀ (a b c : Bytes), strLess a b = true → strLess b c = true →
    strLess a c = true
  | [], [], _, h, _ => by simp [strLess] at h
  | [], _ :: _, [], _, h => by simp [strLess] at h
  | [], _ :: _, _ :: _, _, _ => by simp [strLess]
  | _ :: _, [], _, h, _ => by simp [strLess] at h
  | _ :: _, _ :: _, [], _, h => by simp [strLess] at h
  | x :: xs, y :: ys, z :: zs, h1, h2 => by
    simp only [strLess, Bool.or_eq_true, Bool.and_eq_true, decide_eq_true_eq] at h1 h2 ⊢
    rcases h1 with h1 | ⟨e1, t1⟩ <;> rcases h2 with h2 | ⟨e2, t2⟩
    · exact Or.inl (lt_trans h1 h2)
    · exact Or.inl (e2 ▸ h1)
    · exact Or.inl (e1 ▸ h2)
    · exact Or.inr ⟨e1.trans e2, strLess_trans xs ys zs t1 t2⟩

theorem strLess_connected : ∀ (a b : Bytes), strLess a b = false → strLess b a = false → a = b
  | [], [], _, _ => rfl
  | [], _ :: _, h, _ => by simp [strLess] at h
  | _ :: _, [], _, h => by simp [strLess] at h
  | x :: xs, y :: ys, h1, h2 => by
    simp only [strLess, Bool.or_eq_false_iff, Bool.and_eq_false_iff,
      decide_eq_false_iff_not] at h1 h2
    have hxy : x = y := le_antisymm (not_lt.mp h2.1) (not_lt.mp h1.1)
    subst hxy
    have t1 : strLess xs ys = false := by
      rcases h1.2 with h | h
      · exact absurd rfl h
      · exact h
    have t2 : strLess ys xs = false := by
      rcases h2.2 with h | h
      · exact absurd rfl h
      · exact h
    rw [strLess_connected xs ys t1 t2]

theorem strLess_cotrans : ∀ (a b c : Bytes), strLess a c = true →
    strLess a b = true ∨ strLess b c = true
  | [], _, [], h => by simp [strLess] at h
  | [], [], _ :: _, _ => Or.inr (by simp [strLess])
  | [], _ :: _, _ :: _, _ => Or.inl (by simp [strLess])
  | _ :: _, _, [], h => by simp [strLess] at h
  | _ :: _, [], _ :: _, _ => Or.inr (by simp [strLess])
  | x :: xs, y :: ys, z :: zs, h => by
    simp only [strLess, Bool.or_eq_true, Bool.and_eq_true, decide_eq_true_eq] at h ⊢
    rcases h with h | ⟨e, t⟩
    · by_cases hxy : x < y
      · exact Or.inl (Or.inl hxy)
      · by_cases hyz : y < z
        · exact Or.inr (Or.inl hyz)
        · exact absurd (lt_of_lt_of_le h (not_lt.mp hyz)) hxy
    · subst e
      by_cases hxy : x < y
      · exact Or.inl (Or.inl hxy)
      · by_cases hyx : y < x
        · exact Or.inr (Or.inl hyx)
        · have : x = y := le_antisymm (not_lt.mp hyx) (not_lt.mp hxy)
          subst this
          rcases strLess_cotrans xs ys zs t with h | h
          · exact Or.inl (Or.inr ⟨rfl, h⟩)
          · exact Or.inr (Or.inr ⟨rfl, h⟩)

theorem strLE_total (a b : Bytes) : strLE a b ∨ strLE b a := by
  unfold strLE
  cases h : strLess b a
  · exact Or.inl rfl
  · exact Or.inr (strLess_asymm b a h)

theorem strLE_trans (a b c : Bytes) (h1 : strLE a b) (h2 : strLE b c) : strLE a c := by
  unfold strLE at *
  cases h : strLess c a
  · rfl
  · rcases strLess_cotrans c b a h with h3 | h3
    · rw [h3] at h2; cases h2
    · rw [h3] at h1; cases h1

theorem strLE_antisymm (a b : Bytes) (h1 : strLE a b) (h2 : strLE b a) : a = b :=
  strLess_connected a b h2 h1

theorem sortStrings_perm (keys : List Bytes) : (sortStrings keys).Perm keys :=
  List.perm_insertionSort strLE keys

theorem sortStrings_sorted (keys : List Bytes) : (sortStrings keys).Sorted strLE := by
  haveI : IsTotal Bytes strLE := ⟨strLE_total⟩
  haveI : IsTrans Bytes strLE := ⟨strLE_trans⟩
  exact List.sorted_insertionSort strLE keys

theorem sortStrings_unique (keys ks : List Bytes) (hp : ks.Perm keys)
    (hs : ks.Pairwise (fun a b => strLess a b = true)) : sortStrings keys = ks := by
  haveI : IsAntisymm Bytes strLE := ⟨strLE_antisymm⟩
  refine List.eq_of_perm_of_sorted ((sortStrings_perm keys).trans hp.symm)
    (sortStrings_sorted keys) ?_
  exact hs.imp (fun {a b} h => strLess_asymm a b h)

theorem sortStrings_congr (k1 k2 : List Bytes) (hp : k1.Perm k2) :
    sortStrings k1 = sortStrings k2 := by
  haveI : IsAntisymm Bytes strLE := ⟨strLE_antisymm⟩
  exact List.eq_of_perm_of_sorted
    (((sortStrings_perm k1).trans hp).trans (sortStrings_perm k2).symm)
    (sortStrings_sorted k1) (sortStrings_sorted k2)

/-! ## Maps -/

theorem mapIndex_of_mem : ∀ (v : GoMap) (k x : Bytes), (mapKeys v).Nodup → (k, x) ∈ v →
    mapIndex v k = x
  | [], _, _, _, h => by simp at h
  | (k0, x0) :: rest, k, x, hnd, h => by
    simp only [mapKeys, List.map_cons, List.nodup_cons] at hnd
    simp only [List.mem_cons, Prod.mk.injEq] at h
    by_cases hk : k0 = k
    · subst hk
      rcases h with h | h
      · simp [mapIndex, h.2]
      · exact absurd (List.mem_map_of_mem Prod.fst h) hnd.1
    · rcases h with h | h
      · exact absurd h.1.symm hk
      · simp only [mapIndex, if_neg hk]
        exact mapIndex_of_mem rest k x hnd.2 h

theorem mapIndex_of_not_mem : ∀ (v : GoMap) (k : Bytes), k ∉ mapKeys v → mapIndex v k = []
  | [], _, _ => rfl
  | (k0, x0) :: rest, k, h => by
    simp only [mapKeys, List.map_cons, List.mem_cons, not_or] at h
    simp only [mapIndex, if_neg (Ne.symm h.1)]
    exact mapIndex_of_not_mem rest k h.2

theorem mapIndex_perm (v w : GoMap) (hnd : (mapKeys v).Nodup) (hp : v.Perm w) (k : Bytes) :
    mapIndex v k = mapIndex w k := by
  have hndw : (mapKeys w).Nodup := (hp.map Prod.fst).nodup_iff.mp hnd
  by_cases hk : k ∈ mapKeys v
  · obtain ⟨⟨k1, x⟩, hmem, rfl⟩ := List.mem_map.mp hk
    rw [mapIndex_of_mem v k1 x hnd hmem, mapIndex_of_mem w k1 x hndw (hp.subset hmem)]
  · have hkw : k ∉ mapKeys w := fun h => hk ((hp.map Prod.fst).symm.subset h)
    rw [mapIndex_of_not_mem v k hk, mapIndex_of_not_mem w k hkw]

theorem mapIndex_mapAssign_same : ∀ (v : GoMap) (k s : Bytes), mapIndex (mapAssign v k s) k = s
  | [], k, s => by simp [mapAssign, mapIndex]
  | (k0, x0) :: rest, k, s => by
    by_cases hk : k0 = k
    · simp [mapAssign, mapIndex, hk]
    · simp [mapAssign, mapIndex, hk, mapIndex_mapAssign_same rest k s]

theorem mapIndex_mapAssign_other : ∀ (v : GoMap) (k s k1 : Bytes), k1 ≠ k →
    mapIndex (mapAssign v k s) k1 = mapIndex v k1
  | [], k, s, k1, h => by simp [mapAssign, mapIndex, Ne.symm h]
  | (k0, x0) :: rest, k, s, k1, h => by
    by_cases hk : k0 = k
    · subst hk
      simp [mapAssign, mapIndex, Ne.symm h]
    · simp [mapAssign, mapIndex, hk, mapIndex_mapAssign_other rest k s k1 h]

theorem mapKeys_mapAssign_mem : ∀ (v : GoMap) (k s : Bytes), k ∈ mapKeys v →
    mapKeys (mapAssign v k s) = mapKeys v
  | [], _, _, h => by simp [mapKeys] at h
  | (k0, x0) :: rest, k, s, h => by
    by_cases hk : k0 = k
    · simp [mapAssign, mapKeys, hk]
    · have h1 : k ∈ mapKeys rest := by
        simp only [mapKeys, List.map_cons, List.mem_cons] at h
        rcases h with h | h
        · exact absurd h.symm hk
        · exact h
      have ih := mapKeys_mapAssign_mem rest k s h1
      simp only [mapKeys] at ih
      simp [mapAssign, mapKeys, hk, ih]

theorem mapKeys_mapAssign_not_mem : ∀ (v : GoMap) (k s : Bytes), k ∉ mapKeys v →
    mapKeys (mapAssign v k s) = mapKeys v ++ [k]
  | [], _, _, _ => by simp [mapKeys, mapAssign]
  | (k0, x0) :: rest, k, s, h => by
    simp only [mapKeys, List.map_cons, List.mem_cons, not_or] at h
    have ih := mapKeys_mapAssign_not_mem rest k s h.2
    simp only [mapKeys] at ih
    simp [mapAssign, mapKeys, Ne.symm h.1, ih]

theorem mem_mapKeys_mapAssign (v : GoMap) (k s k1 : Bytes) :
    k1 ∈ mapKeys (mapAssign v k s) ↔ k1 ∈ mapKeys v ∨ k1 = k := by
  by_cases hk : k ∈ mapKeys v
  · rw [mapKeys_mapAssign_mem v k s hk]
    constructor
    · exact Or.inl
    · rintro (h | h)
      · exact h
      · exact h ▸ hk
  · rw [mapKeys_mapAssign_not_mem v k s hk]
    simp

theorem nodup_mapKeys_mapAssign (v : GoMap) (k s : Bytes) (hnd : (mapKeys v).Nodup) :
    (mapKeys (mapAssign v k s)).Nodup := by
  by_cases hk : k ∈ mapKeys v
  · rw [mapKeys_mapAssign_mem v k s hk]; exact hnd
  · rw [mapKeys_mapAssign_not_mem v k s hk]
    exact List.nodup_append.mpr ⟨hnd, List.nodup_singleton k, by
      intro a ha hb
      rw [List.mem_singleton] at hb
      exact hk (hb ▸ ha)⟩

/-! ## The token buffer -/

theorem foldl_collect_keys (v : GoMap) (acc : List Bytes) :
    v.foldl (fun keys kv => keys ++ [kv.1]) acc = acc ++ mapKeys v := by
  induction v generalizing acc with
  | nil => simp [mapKeys]
  | cons kv rest ih => simp [mapKeys, ih]

theorem foldl_write_values (f : Bytes → Bytes) (keys : List Bytes) (acc : Bytes) :
    keys.foldl (fun b key => b ++ f key) acc = acc ++ (keys.map f).flatten := by
  induction keys generalizing acc with
  | nil => simp
  | cons k rest ih => simp [ih]

theorem tokenBuffer_eq (v : GoMap) :
    tokenBuffer v = ((sortStrings (mapKeys v)).map (mapIndex v)).flatten := by
  unfold tokenBuffer
  simp only [foldl_collect_keys, foldl_write_values, List.nil_append]

theorem hexDigit_eq_alphabet : ∀ n : Fin 16, hexDigit n.val = hexAlphabet.getD n.val 0 := by
  decide

theorem sprintfHex_eq_lowerHex (bs : Bytes) : sprintfHex bs = lowerHex bs := by
  induction bs with
  | nil => rfl
  | cons b rest ih =>
    have h1 := hexDigit_eq_alphabet ⟨b.val / 16, by omega⟩
    have h2 := hexDigit_eq_alphabet ⟨b.val % 16, by omega⟩
    simp only at h1 h2
    have ih2 : List.foldr (fun b acc => hexDigit (b.val / 16) :: hexDigit (b.val % 16) :: acc)
        [] rest = lowerHex rest := ih
    simp only [sprintfHex, List.foldr_cons, ih2, h1, h2]
    simp [lowerHex]

theorem Sum256_abc : sprintfHex (Sum256 (str "abc")) =
    str "ba7816bf8f01cfea414140de5dae2223b00361a396177a9cb410ff61f20015ad" := by
  decide

theorem Sum256_empty : sprintfHex (Sum256 []) =
    str "e3b0c44298fc1c149afbf4c8996fb92427ae41e4649b934ca495991b7852b855" := by
  decide

theorem sortStrings_strict (keys : List Bytes) (hnd : keys.Nodup) :
    (sortStrings keys).Pairwise (fun a b => strLess a b = true) := by
  have hs : (sortStrings keys).Pairwise strLE := sortStrings_sorted keys
  have hn : (sortStrings keys).Pairwise (fun a b => a ≠ b) :=
    (sortStrings_perm keys).nodup_iff.mpr hnd
  refine (hs.and hn).imp ?_
  intro a b h
  cases hab : strLess a b
  · exact absurd (strLess_connected a b hab h.1) h.2
  · rfl

/-- C1: for every finite mapping `v` (pairwise distinct keys) there is exactly
one enumeration `ks` of its keys in strictly ascending byte-wise order, and
`generateToken v` is the lowercase hexadecimal rendering of SHA-256 of the
values `v[k]` concatenated, without separators, with `k` running through `ks`. -/
theorem generateToken_sorted_concat (v : GoMap) (hnd : (mapKeys v).Nodup) :
    ∃ ks : List Bytes, ks.Perm (mapKeys v) ∧ ks.Pairwise (fun a b => strLess a b = true) ∧
      generateToken v = lowerHex (Sum256 ((ks.map (mapIndex v)).flatten)) ∧
      ∀ ks1 : List Bytes, ks1.Perm (mapKeys v) →
        ks1.Pairwise (fun a b => strLess a b = true) → ks1 = ks := by
  refine ⟨sortStrings (mapKeys v), sortStrings_perm _, sortStrings_strict _ hnd, ?_, ?_⟩
  · simp only [generateToken, tokenBuffer_eq, sprintfHex_eq_lowerHex]
  · intro ks1 hp hs
    exact (sortStrings_unique (mapKeys v) ks1 hp hs).symm

theorem generateToken_sorted_concat_witness :
    ∃ ks : List Bytes, ks.Perm (mapKeys literalFields) ∧
      ks.Pairwise (fun a b => strLess a b = true) ∧
      generateToken literalFields = lowerHex (Sum256 ((ks.map (mapIndex literalFields)).flatten)) ∧
      ∀ ks1 : List Bytes, ks1.Perm (mapKeys literalFields) →
        ks1.Pairwise (fun a b => strLess a b = true) → ks1 = ks :=
  generateToken_sorted_concat literalFields (by decide)

/-- C2: two enumerations of the same key/value pairs (distinct keys, one a
permutation of the other) give the same token. -/
theorem generateToken_perm (v w : GoMap) (hnd : (mapKeys v).Nodup) (hp : v.Perm w) :
    generateToken v = generateToken w := by
  have hk : sortStrings (mapKeys v) = sortStrings (mapKeys w) :=
    sortStrings_congr _ _ (hp.map Prod.fst)
  have hi : mapIndex v = mapIndex w := funext (mapIndex_perm v w hnd hp)
  simp only [generateToken, tokenBuffer_eq, hk, hi]

theorem generateToken_perm_witness :
    generateToken literalFields = generateToken literalFields.reverse :=
  generateToken_perm literalFields literalFields.reverse (by decide)
    (List.reverse_perm literalFields).symm

/-- C3 (as stated, refuted): on the literal mapping the sorted key order is
not Password, TerminalKey, OrderId, the hashed byte string is not
"pwTK1ORD42", and the token is not the SHA-256 hex digest of "pwTK1ORD42". -/
theorem literalFields_not_password_first :
    sortStrings (mapKeys literalFields) ≠ [str "Password", str "TerminalKey", str "OrderId"] ∧
    tokenBuffer literalFields ≠ str "pwTK1ORD42" ∧
    generateToken literalFields ≠ lowerHex (Sum256 (str "pwTK1ORD42")) := by
  decide

/-- C3 (amended): for every enumeration of the literal mapping the keys sort
to OrderId, Password, TerminalKey, the hashed byte string is "ORD42pwTK1", and
the token is the SHA-256 hex digest of "ORD42pwTK1", a fixed 64-digit string. -/
theorem literalFields_token (w : GoMap) (hp : w.Perm literalFields) :
    sortStrings (mapKeys w) = [str "OrderId", str "Password", str "TerminalKey"] ∧
    tokenBuffer w = str "ORD42pwTK1" ∧
    generateToken w = lowerHex (Sum256 (str "ORD42pwTK1")) ∧
    generateToken w =
      str "5705c92d0b3a838dd8f14b9b152025db1707c30c9dc094b3e30ea207f6531604" := by
  have hnd : (mapKeys literalFields).Nodup := by decide
  have hk : sortStrings (mapKeys w) = sortStrings (mapKeys literalFields) :=
    sortStrings_congr _ _ (hp.map Prod.fst)
  have hi : mapIndex w = mapIndex literalFields :=
    funext (fun k => (mapIndex_perm literalFields w hnd hp.symm k).symm)
  have hb : tokenBuffer w = tokenBuffer literalFields := by
    simp only [tokenBuffer_eq, hk, hi]
  have hg : generateToken w = generateToken literalFields := by
    simp only [generateToken, hb]
  rw [hk, hb, hg]
  decide

theorem literalFields_token_witness :
    sortStrings (mapKeys literalFields.reverse) =
      [str "OrderId", str "Password", str "TerminalKey"] ∧
    tokenBuffer literalFields.reverse = str "ORD42pwTK1" ∧
    generateToken literalFields.reverse = lowerHex (Sum256 (str "ORD42pwTK1")) ∧
    generateToken literalFields.reverse =
      str "5705c92d0b3a838dd8f14b9b152025db1707c30c9dc094b3e30ea207f6531604" :=
  literalFields_token literalFields.reverse (List.reverse_perm literalFields)

/-- C5: `isSuccessResponseCode` is true exactly for the status codes 200, 201
and 204; in particular 202 is classified as failure. -/
theorem isSuccessResponseCode_iff (resp : HttpResponse) :
    (isSuccessResponseCode resp = true ↔
      resp.StatusCode = 200 ∨ resp.StatusCode = 201 ∨ resp.StatusCode = 204) ∧
    isSuccessResponseCode { resp with StatusCode := 202 } = false := by
  constructor
  · simp [isSuccessResponseCode, or_assoc]
  · simp [isSuccessResponseCode]

/-- C10: the mappings A:"ab", B:"c" and A:"a", B:"bc" are distinct, have the
same keys, feed the same bytes "abc" to the hash and get the same token; more
generally moving bytes between two adjacent values never changes the token. -/
theorem generateToken_split_collision :
    splitLeft ≠ splitRight ∧ mapKeys splitLeft = mapKeys splitRight ∧
    tokenBuffer splitLeft = str "abc" ∧ tokenBuffer splitRight = str "abc" ∧
    generateToken splitLeft = generateToken splitRight ∧
    ∀ x y z : Bytes,
      generateToken [(str "A", x ++ y), (str "B", z)] =
        generateToken [(str "A", x), (str "B", y ++ z)] := by
  refine ⟨by decide, by decide, by decide, by decide, ?_, ?_⟩
  · have h : tokenBuffer splitLeft = tokenBuffer splitRight := by decide
    simp only [generateToken, h]
  · intro x y z
    have hs : sortStrings [str "A", str "B"] = [str "A", str "B"] := by decide
    have hne : str "A" ≠ str "B" := by decide
    simp [generateToken, tokenBuffer_eq, mapKeys, hs, mapIndex, hne]

/-! ## Sensitivity of the token -/

theorem hexDigit_inj : ∀ m n : Fin 16, hexDigit m.val = hexDigit n.val → m = n := by
  decide

theorem sprintfHex_injective : ∀ a b : Bytes, sprintfHex a = sprintfHex b → a = b
  | [], [], _ => rfl
  | [], _ :: _, h => by simp [sprintfHex] at h
  | _ :: _, [], h => by simp [sprintfHex] at h
  | x :: xs, y :: ys, h => by
    simp only [sprintfHex, List.foldr_cons, List.cons.injEq] at h
    obtain ⟨h1, h2, h3⟩ := h
    have e1 := hexDigit_inj ⟨x.val / 16, by omega⟩ ⟨y.val / 16, by omega⟩ h1
    have e2 := hexDigit_inj ⟨x.val % 16, by omega⟩ ⟨y.val % 16, by omega⟩ h2
    simp only [Fin.mk.injEq] at e1 e2
    have hxy : x = y := Fin.ext (by omega)
    rw [hxy, sprintfHex_injective xs ys h3]

theorem flatten_map_update_ne (f g : Bytes → Bytes) (k : Bytes) :
    ∀ ks : List Bytes, ks.Nodup → k ∈ ks → f k ≠ g k → (∀ k1, k1 ≠ k → f k1 = g k1) →
      (ks.map f).flatten ≠ (ks.map g).flatten
  | [], _, hk, _, _ => by simp at hk
  | a :: rest, hnd, hk, hfk, hother => by
    rw [List.nodup_cons] at hnd
    simp only [List.map_cons, List.flatten_cons]
    by_cases hak : a = k
    · subst hak
      have hrest : rest.map f = rest.map g :=
        List.map_congr_left (fun k1 h1 => hother k1 (fun e => hnd.1 (e ▸ h1)))
      rw [hrest]
      intro h
      exact hfk (List.append_cancel_right h)
    · rw [hother a hak]
      intro h
      have hk1 : k ∈ rest := by
        rcases List.mem_cons.mp hk with h1 | h1
        · exact absurd h1.symm hak
        · exact h1
      exact flatten_map_update_ne f g k rest hnd.2 hk1 hfk hother (List.append_cancel_left h)

theorem tokenBuffer_mapAssign_ne (v : GoMap) (k s : Bytes) (hnd : (mapKeys v).Nodup)
    (hk : k ∈ mapKeys v) (hs : s ≠ mapIndex v k) :
    tokenBuffer (mapAssign v k s) ≠ tokenBuffer v := by
  rw [tokenBuffer_eq, tokenBuffer_eq, mapKeys_mapAssign_mem v k s hk]
  refine flatten_map_update_ne _ _ k _ ((sortStrings_perm _).nodup_iff.mpr hnd)
    ((sortStrings_perm _).symm.subset hk) ?_ ?_
  · rw [mapIndex_mapAssign_same]; exact hs
  · intro k1 h1
    exact mapIndex_mapAssign_other v k s k1 h1

theorem Sum256_length (msg : Bytes) : (Sum256 msg).length = 32 := by
  simp [Sum256, beBytes]

theorem Sum256_collision :
    ∃ x y : Bytes, x.length = 33 ∧ y.length = 33 ∧ x ≠ y ∧ Sum256 x = Sum256 y := by
  have hcard : Fintype.card (Fin 32 → Byte) < Fintype.card (Fin 33 → Byte) := by
    simp only [Fintype.card_fun, Fintype.card_fin]
    norm_num
  obtain ⟨g1, g2, hne, heq⟩ := Fintype.exists_ne_map_eq_of_card_lt
    (fun (g : Fin 33 → Byte) (i : Fin 32) => (Sum256 (List.ofFn g)).getD i.val 0) hcard
  refine ⟨List.ofFn g1, List.ofFn g2, by simp, by simp, ?_, ?_⟩
  · intro h
    exact hne (List.ofFn_injective h)
  · apply List.ext_getElem
    · rw [Sum256_length, Sum256_length]
    · intro i h1 h2
      have hi : i < 32 := by rw [Sum256_length] at h1; exact h1
      have := congrFun heq ⟨i, hi⟩
      simp only [List.getD_eq_getElem _ _ h1, List.getD_eq_getElem _ _ h2] at this
      exact this

theorem tokenBuffer_single (k x : Bytes) : tokenBuffer [(k, x)] = x := by
  simp [tokenBuffer_eq, mapKeys, sortStrings, mapIndex]

/-- C8 (as stated, refuted): it is not the case that changing one value of a
mapping to a different string always changes the token; two different 33-byte
passwords with equal SHA-256 digests exist by counting. -/
theorem generateToken_not_always_sensitive :
    ¬ ∀ (v : GoMap) (k s : Bytes), (mapKeys v).Nodup → k ∈ mapKeys v → s ≠ mapIndex v k →
      generateToken (mapAssign v k s) ≠ generateToken v := by
  intro hall
  obtain ⟨x, y, _, _, hne, heq⟩ := Sum256_collision
  have h := hall [(str "Password", x)] (str "Password") y (by simp [mapKeys])
    (by simp [mapKeys]) (by simpa [mapIndex] using Ne.symm hne)
  apply h
  simp only [generateToken, mapAssign, if_true, tokenBuffer_single, heq]

/-- C8 (amended): for a mapping with distinct keys, changing the value of one
of its keys to a different string changes the byte string that is hashed, and
the token changes exactly when SHA-256 gives the two byte strings different
digests. -/
theorem generateToken_sensitive (v : GoMap) (k s : Bytes) (hnd : (mapKeys v).Nodup)
    (hk : k ∈ mapKeys v) (hs : s ≠ mapIndex v k) :
    tokenBuffer (mapAssign v k s) ≠ tokenBuffer v ∧
    (generateToken (mapAssign v k s) ≠ generateToken v ↔
      Sum256 (tokenBuffer (mapAssign v k s)) ≠ Sum256 (tokenBuffer v)) := by
  refine ⟨tokenBuffer_mapAssign_ne v k s hnd hk hs, ?_⟩
  simp only [generateToken]
  constructor
  · intro h e
    exact h (by rw [e])
  · intro h e
    exact h (sprintfHex_injective _ _ e)

theorem generateToken_sensitive_witness :
    tokenBuffer (mapAssign literalFields (str "Password") (str "pw2")) ≠
      tokenBuffer literalFields ∧
    (generateToken (mapAssign literalFields (str "Password") (str "pw2")) ≠
        generateToken literalFields ↔
      Sum256 (tokenBuffer (mapAssign literalFields (str "Password") (str "pw2"))) ≠
        Sum256 (tokenBuffer literalFields)) :=
  generateToken_sensitive literalFields (str "Password") (str "pw2") (by decide) (by decide)
    (by decide)

/-! ## Request signing and dispatch -/

theorem Itoa_examples :
    Itoa 500 = str "500" ∧ Itoa 404 = str "404" ∧ Itoa 0 = str "0" ∧ Itoa (-12) = str "-12" := by
  decide

/-- C4 (as stated, refuted): a request whose `GetValuesForToken` returns the
nil map makes `secureRequest` panic; the terminal key is set, the token is not
set and is not `generateToken` of the credentials. -/
theorem secureRequest_nil_map_panics :
    (secureRequest (stubClient (failingTransport GoError.EOF)) nilMapInterface
      orderRequest).panicked = true ∧
    (secureRequest (stubClient (failingTransport GoError.EOF)) nilMapInterface
      orderRequest).request.TerminalKey = str "TK1" ∧
    (secureRequest (stubClient (failingTransport GoError.EOF)) nilMapInterface
      orderRequest).request.Token = [] ∧
    (secureRequest (stubClient (failingTransport GoError.EOF)) nilMapInterface
      orderRequest).request.Token ≠
        generateToken (signedFields (stubClient (failingTransport GoError.EOF)) []) := by
  decide

/-- C4 (amended): when the request's `GetValuesForToken()` returns a non-nil
map `v`, `secureRequest` returns, having set the terminal key and then the
token, the token being `generateToken` of the pairs of `v` in which TerminalKey
and Password are bound to the client's credentials and every other key keeps
its value; for a `CheckOrderRequest` it always returns, the terminal-key field
is the client's, the keys are exactly OrderId, Password, TerminalKey, and the
token is the hash of order id, password and terminal key in that order. -/
theorem secureRequest_signs {ρ : Type} (c : Client) (I : RequestInterface ρ) (request : ρ)
    (v : GoMap)
    (hv : I.GetValuesForToken (I.SetTerminalKey request c.terminalKey) = some v) :
    secureRequest c I request =
      ⟨I.SetToken (I.SetTerminalKey request c.terminalKey)
        (generateToken (signedFields c v)), false⟩ ∧
    mapIndex (signedFields c v) (str "TerminalKey") = c.terminalKey ∧
    mapIndex (signedFields c v) (str "Password") = c.password ∧
    (∀ k : Bytes, k ≠ str "TerminalKey" → k ≠ str "Password" →
      mapIndex (signedFields c v) k = mapIndex v k) ∧
    (∀ k : Bytes, k ∈ mapKeys (signedFields c v) ↔
      k ∈ mapKeys v ∨ k = str "TerminalKey" ∨ k = str "Password") ∧
    ((mapKeys v).Nodup → (mapKeys (signedFields c v)).Nodup) ∧
    (∀ q : CheckOrderRequest,
      (secureRequest c checkOrderRequestInterface q).panicked = false ∧
      (secureRequest c checkOrderRequestInterface q).request.TerminalKey = c.terminalKey ∧
      (secureRequest c checkOrderRequestInterface q).request.OrderID = q.OrderID ∧
      (secureRequest c checkOrderRequestInterface q).request.Token =
        generateToken (signedFields c q.GetValuesForToken) ∧
      (mapKeys (signedFields c q.GetValuesForToken)).Perm
        [str "OrderId", str "Password", str "TerminalKey"] ∧
      (secureRequest c checkOrderRequestInterface q).request.Token =
        lowerHex (Sum256 (q.OrderID ++ c.password ++ c.terminalKey))) := by
  have hne : str "TerminalKey" ≠ str "Password" := by decide
  refine ⟨?_, ?_, ?_, ?_, ?_, ?_, ?_⟩
  · simp only [secureRequest, hv, signedFields]
  · unfold signedFields
    rw [mapIndex_mapAssign_other _ _ _ _ hne, mapIndex_mapAssign_same]
  · unfold signedFields
    rw [mapIndex_mapAssign_same]
  · intro k h1 h2
    unfold signedFields
    rw [mapIndex_mapAssign_other _ _ _ _ h2, mapIndex_mapAssign_other _ _ _ _ h1]
  · intro k
    unfold signedFields
    rw [mem_mapKeys_mapAssign, mem_mapKeys_mapAssign, or_assoc]
  · intro h
    exact nodup_mapKeys_mapAssign _ _ _ (nodup_mapKeys_mapAssign _ _ _ h)
  · intro q
    have h1 : str "OrderId" ≠ str "TerminalKey" := by decide
    have h2 : str "OrderId" ≠ str "Password" := by decide
    have hm : signedFields c q.GetValuesForToken =
        [(str "OrderId", q.OrderID), (str "TerminalKey", c.terminalKey),
          (str "Password", c.password)] := by
      simp [signedFields, CheckOrderRequest.GetValuesForToken, mapAssign, h1, h2, hne]
    have hs : sortStrings [str "OrderId", str "TerminalKey", str "Password"] =
        [str "OrderId", str "Password", str "TerminalKey"] := by decide
    refine ⟨rfl, rfl, rfl, rfl, ?_, ?_⟩
    · rw [hm]
      simp only [mapKeys, List.map_cons, List.map_nil]
      exact (List.Perm.swap _ _ _).cons _
    · show generateToken (signedFields c q.GetValuesForToken) = _
      rw [hm]
      simp [generateToken, tokenBuffer_eq, mapKeys, hs, mapIndex, h1, h2, hne, hne.symm,
        h1.symm, h2.symm, sprintfHex_eq_lowerHex]

theorem secureRequest_signs_witness :
    (secureRequest (stubClient (failingTransport GoError.EOF)) checkOrderRequestInterface
      orderRequest).panicked = false ∧
    (secureRequest (stubClient (failingTransport GoError.EOF)) checkOrderRequestInterface
      orderRequest).request.TerminalKey = str "TK1" ∧
    (secureRequest (stubClient (failingTransport GoError.EOF)) checkOrderRequestInterface
      orderRequest).request.Token =
        str "5705c92d0b3a838dd8f14b9b152025db1707c30c9dc094b3e30ea207f6531604" := by
  have h := (secureRequest_signs (stubClient (failingTransport GoError.EOF))
    checkOrderRequestInterface orderRequest [(str "OrderId", str "ORD42")] rfl).1
  rw [h]
  decide

/-- C6: when the transport answers with a status code other than 200, 201 and
204 and the body reads fully as `b`, `PostRequestWithContext` returns no
response and the error whose message is "error code: ", the decimal status
code, "message: " and `b`. The first hypotheses say that the call got as far as
the transport: signing returned, marshalling and request construction
succeeded. -/
theorem PostRequestWithContext_status_error {ρ R : Type} (lib : StdLib ρ R) (c : Client)
    (I : RequestInterface ρ) (url : Bytes) (request : ρ) (data : Bytes) (req : HttpRequest)
    (resp : HttpResponse)
    (hsig : (secureRequest c I request).panicked = false)
    (hm : lib.jsonMarshal (secureRequest c I request).request = .ok data)
    (hn : lib.newRequestWithContext (str "POST") (c.baseURL ++ url) data = .ok req)
    (hd : c.httpClient { req with
      Header := mapAssign req.Header (str "Content-Type") (str "application/json") } =
        (some resp, none))
    (hcode : resp.StatusCode ≠ 200 ∧ resp.StatusCode ≠ 201 ∧ resp.StatusCode ≠ 204)
    (hbody : resp.Body.failure = none) :
    (PostRequestWithContext lib c I url request).out =
      .ret none (some (GoError.errorString
        (str "error code: " ++ Itoa resp.StatusCode ++ str "message: " ++ resp.Body.data))) := by
  have hs : isSuccessResponseCode resp = false := by
    simp [isSuccessResponseCode, hcode.1, hcode.2.1, hcode.2.2]
  simp only [PostRequestWithContext, hsig, hm, hn, hd, hs, ReadAll, hbody,
    returnErrOnResponse]
  rfl

theorem PostRequestWithContext_status_error_witness :
    (PostRequestWithContext stubLib (stubClient (stubTransport 500 (str "internal error")))
        checkOrderRequestInterface (str "/CheckOrder") orderRequest).out =
      .ret none (some (GoError.errorString (str "error code: 500message: internal error"))) :=
  (PostRequestWithContext_status_error stubLib
    (stubClient (stubTransport 500 (str "internal error"))) checkOrderRequestInterface
    (str "/CheckOrder") orderRequest _ _
    { StatusCode := 500, Body := { data := str "internal error", failure := none } }
    rfl rfl rfl rfl (by decide) rfl).trans (by decide)

/-- C9: when the transport's `Do` returns an error `e`, `PostRequestWithContext`
returns no response and exactly `e`, whatever response object came with the
error, and leaves that object as the transport produced it (its body unread).
The first hypotheses say that the call got as far as the transport: signing
returned, marshalling and request construction succeeded. -/
theorem PostRequestWithContext_transport_error {ρ R : Type} (lib : StdLib ρ R) (c : Client)
    (I : RequestInterface ρ) (url : Bytes) (request : ρ) (data : Bytes) (req : HttpRequest)
    (r : Option HttpResponse) (e : GoError)
    (hsig : (secureRequest c I request).panicked = false)
    (hm : lib.jsonMarshal (secureRequest c I request).request = .ok data)
    (hn : lib.newRequestWithContext (str "POST") (c.baseURL ++ url) data = .ok req)
    (hd : c.httpClient { req with
      Header := mapAssign req.Header (str "Content-Type") (str "application/json") } =
        (r, some e)) :
    (PostRequestWithContext lib c I url request).out = .ret none (some e) ∧
    (PostRequestWithContext lib c I url request).wire = r := by
  simp [PostRequestWithContext, hsig, hm, hn, hd]

theorem PostRequestWithContext_transport_error_witness :
    (PostRequestWithContext stubLib (stubClient (failingTransport (GoError.other 7)))
        checkOrderRequestInterface (str "/CheckOrder") orderRequest).out =
      .ret none (some (GoError.other 7)) ∧
    (PostRequestWithContext stubLib (stubClient (failingTransport (GoError.other 7)))
        checkOrderRequestInterface (str "/CheckOrder") orderRequest).wire = none :=
  PostRequestWithContext_transport_error stubLib
    (stubClient (failingTransport (GoError.other 7))) checkOrderRequestInterface
    (str "/CheckOrder") orderRequest _ _ none (GoError.other 7) rfl rfl rfl rfl

/-- C7 (what the code does): whenever the transport answers with a success
status and a body that reads fully, `CheckOrder` has read the body to its end
before decoding, the decoder finds an empty stream, and `CheckOrder` returns no
response and the error `io.EOF`. -/
theorem CheckOrder_returns_EOF {β : Type}
    (lib : StdLib CheckOrderRequest (CheckOrderResponse β)) (c : Client)
    (request : CheckOrderRequest) (data : Bytes) (req : HttpRequest) (resp : HttpResponse)
    (hm : lib.jsonMarshal (secureRequest c checkOrderRequestInterface request).request =
      .ok data)
    (hn : lib.newRequestWithContext (str "POST") (c.baseURL ++ str "/CheckOrder") data =
      .ok req)
    (hd : c.httpClient { req with
      Header := mapAssign req.Header (str "Content-Type") (str "application/json") } =
        (some resp, none))
    (hs : isSuccessResponseCode resp = true)
    (hbody : resp.Body.failure = none) :
    CheckOrder lib c request = .ret none (some GoError.EOF) := by
  have hsig : (secureRequest c checkOrderRequestInterface request).panicked = false := rfl
  simp [CheckOrder, PostRequest, PostRequestWithContext, hsig, hm, hn, hd, hs, ReadAll, hbody,
    decodeResponse]

theorem CheckOrder_returns_EOF_witness :
    CheckOrder stubLib (stubClient (stubTransport 200 onePaymentBody)) orderRequest =
      .ret none (some GoError.EOF) :=
  CheckOrder_returns_EOF stubLib (stubClient (stubTransport 200 onePaymentBody)) orderRequest
    _ _ { StatusCode := 200, Body := { data := onePaymentBody, failure := none } }
    rfl rfl rfl rfl rfl

end Tinkoff
